import Mathlib

/-!
Shallow embedding of `src/bot_assistant.py` (a command-line contact manager)
and proofs about the claims of its specification.

Conventions of the embedding:
  * Python strings are Lean `String` (a wrapped `List Char`).  `str.lower` and
    `str.isdigit` are modelled over the ASCII range, which is the range the
    program's data lives in (the spec's non-goals fix phone digits to ASCII).
  * `datetime.date` values are `Date` triples (year, month, day) of naturals in
    the proleptic Gregorian calendar; `date.toordinal`, `date.weekday`,
    subtraction of dates and `timedelta` addition are modelled arithmetically.
  * Python exceptions (`ValueError` with a message) are `Except String`.
  * The `dict` underlying `AddressBook` (a `UserDict`) is an association list
    in insertion order; overwriting a key keeps its position, like `dict`.
  * Command handlers mutate the book in place; here they are state passing:
    `List String → AddressBook → String × AddressBook`, returning the printed
    string and the (possibly updated) book.  The `@input_error` decorator's
    guard and `except ValueError` clause are inlined into each handler; its
    KeyError/IndexError/TypeError clauses are unreachable in these handlers.
-/

namespace Bot

/-- Equality of modelled exception results is decidable. -/
def exceptDecEq {ε α : Type} [DecidableEq ε] [DecidableEq α] :
    DecidableEq (Except ε α)
  | .error e, .error f =>
    if h : e = f then .isTrue (by rw [h])
    else .isFalse (by intro hc; cases hc; exact h rfl)
  | .error _, .ok _ => .isFalse (by intro hc; cases hc)
  | .ok _, .error _ => .isFalse (by intro hc; cases hc)
  | .ok a, .ok b =>
    if h : a = b then .isTrue (by rw [h])
    else .isFalse (by intro hc; cases hc; exact h rfl)

instance {ε α : Type} [DecidableEq ε] [DecidableEq α] : DecidableEq (Except ε α) :=
  exceptDecEq

/-! ### Calendar arithmetic (model of `datetime.date` / `timedelta`) -/

/-- Gregorian leap-year rule, as used by `datetime`. -/
def isLeap (y : Nat) : Bool :=
  y % 4 == 0 && (y % 100 != 0 || y % 400 == 0)

/-- Number of days in month `m` of year `y` (months are 1-based). -/
def daysInMonth (y m : Nat) : Nat :=
  if m = 2 then (if isLeap y then 29 else 28)
  else if m = 4 ∨ m = 6 ∨ m = 9 ∨ m = 11 then 30
  else 31

/-- A calendar date, as `datetime.date(year, month, day)`. -/
structure Date where
  year : Nat
  month : Nat
  day : Nat
deriving DecidableEq, Repr

/-- Days in all years strictly before year `y` (proleptic Gregorian),
matching CPython's `_days_before_year`. -/
def daysBeforeYear (y : Nat) : Nat :=
  365 * (y - 1) + (y - 1) / 4 - (y - 1) / 100 + (y - 1) / 400

/-- Days in year `y` strictly before month `m`. -/
def daysBeforeMonth (y m : Nat) : Nat :=
  (List.range (m - 1)).foldl (fun acc i => acc + daysInMonth y (i + 1)) 0

/-- Model of `date.toordinal()`: day 1 is January 1 of year 1. -/
def Date.toOrdinal (d : Date) : Nat :=
  daysBeforeYear d.year + daysBeforeMonth d.year d.month + d.day

/-- Model of `date.weekday()`: Monday is 0 (January 1 of year 1 was a Monday). -/
def Date.weekday (d : Date) : Nat :=
  (d.toOrdinal + 6) % 7

/-- Model of `date` comparison: lexicographic on (year, month, day), which for valid
dates agrees with ordinal comparison. -/
def Date.ltb (a b : Date) : Bool :=
  a.year < b.year ∨ (a.year = b.year ∧
    (a.month < b.month ∨ (a.month = b.month ∧ a.day < b.day)))

/-- Model of `(a - b).days` for two dates: difference of ordinals. -/
def Date.diffDays (a b : Date) : Int :=
  (a.toOrdinal : Int) - (b.toOrdinal : Int)

/-- The calendar day after `d` (for `+ timedelta(days=1)`). -/
def Date.nextDay (d : Date) : Date :=
  if d.day < daysInMonth d.year d.month then ⟨d.year, d.month, d.day + 1⟩
  else if d.month < 12 then ⟨d.year, d.month + 1, 1⟩
  else ⟨d.year + 1, 1, 1⟩

/-- Model of `d + timedelta(days=n)` for `n ≥ 0`. -/
def Date.addDays (d : Date) : Nat → Date
  | 0 => d
  | n + 1 => (d.addDays n).nextDay

/-- Model of `date.replace(year=y)`: the `datetime.date` constructor re-validates, and
raises `ValueError` when the (unchanged) day does not exist in the new year's
month, or when the year leaves `datetime`'s range 1..9999. -/
def Date.replaceYear (d : Date) (y : Nat) : Except String Date :=
  if y = 0 ∨ 9999 < y then .error "year is out of range"
  else if daysInMonth y d.month < d.day then .error "day is out of range for month"
  else .ok ⟨y, d.month, d.day⟩

/-! ### Formatting (`strftime`) -/

/-- Zero-pad a number to two digits, as `%d` / `%m` do. -/
def pad2 (n : Nat) : String :=
  if n < 10 then "0" ++ toString n else toString n

/-- Zero-pad a number to four digits, as `%Y` does for the years in range. -/
def pad4 (n : Nat) : String :=
  if n < 10 then "000" ++ toString n
  else if n < 100 then "00" ++ toString n
  else if n < 1000 then "0" ++ toString n
  else toString n

/-- Model of `d.strftime("%d.%m.%Y")`. -/
def strftimeDMY (d : Date) : String :=
  pad2 d.day ++ "." ++ pad2 d.month ++ "." ++ pad4 d.year

/-! ### Parsing (`datetime.strptime(value, "%d.%m.%Y")`)

CPython's `_strptime` compiles the format `"%d.%m.%Y"` to the anchored regex

    (3[0-1]|[1-2]\d|0[1-9]|[1-9]| [1-9]) \. (1[0-2]|0[1-9]|[1-9]) \. (\d\d\d\d)

and requires the match to consume the whole string ("unconverted data
remains" otherwise); then `datetime(year, month, day)` re-validates the
triple (raising for day out of range for the month, or year 0).
The parser below implements exactly that regex with its backtracking:
after any two-character day/month alternative the following character of a
successful overall match must be the literal dot, while the one-character
alternatives require the dot immediately after; since every two-character
alternative ends in a digit, the one-character fallback can only apply when
the two-character alternatives failed. -/

/-- Numeric value of a digit character. -/
def digitVal (c : Char) : Nat := c.toNat - 48

/-- The two-character alternatives of the day pattern
`3[0-1]|[1-2]\d|0[1-9]| [1-9]`. -/
def twoCharDay (a b : Char) : Bool :=
  (a == '3' && (b == '0' || b == '1')) ||
  ((a == '1' || a == '2') && b.isDigit) ||
  (a == '0' && b.isDigit && b != '0') ||
  (a == ' ' && b.isDigit && b != '0')

/-- The one-character day alternative `[1-9]`. -/
def oneCharDay (a : Char) : Bool := a.isDigit && a != '0'

/-- Value captured by a two-character day match (`int` ignores the blank). -/
def twoCharDayVal (a b : Char) : Nat :=
  if a == ' ' then digitVal b else 10 * digitVal a + digitVal b

/-- The two-character alternatives of the month pattern `1[0-2]|0[1-9]`. -/
def twoCharMonth (a b : Char) : Bool :=
  (a == '1' && (b == '0' || b == '1' || b == '2')) ||
  (a == '0' && b.isDigit && b != '0')

/-- The one-character month alternative `[1-9]`. -/
def oneCharMonth (a : Char) : Bool := a.isDigit && a != '0'

/-- Model of `\d\d\d\d` against the entire remaining input. -/
def parseYear4 : List Char → Option Nat
  | [a, b, c, d] =>
    if a.isDigit && b.isDigit && c.isDigit && d.isDigit then
      some (1000 * digitVal a + 100 * digitVal b + 10 * digitVal c + digitVal d)
    else none
  | _ => none

/-- Month, literal dot, then the four-digit year consuming the rest. -/
def parseMY : List Char → Option (Nat × Nat)
  | a :: b :: rest =>
    if twoCharMonth a b then
      match rest with
      | '.' :: rest2 => (parseYear4 rest2).map (fun y => (10 * digitVal a + digitVal b, y))
      | _ => none
    else if b == '.' && oneCharMonth a then
      (parseYear4 rest).map (fun y => (digitVal a, y))
    else none
  | _ => none

/-- Day, literal dot, then month-dot-year consuming the rest. -/
def parseDMY : List Char → Option (Nat × Nat × Nat)
  | a :: b :: rest =>
    if twoCharDay a b then
      match rest with
      | '.' :: rest2 => (parseMY rest2).map (fun my => (twoCharDayVal a b, my))
      | _ => none
    else if b == '.' && oneCharDay a then
      (parseMY rest).map (fun my => (digitVal a, my))
    else none
  | _ => none

/-- Model of `datetime.strptime(s, "%d.%m.%Y").date()`: regex match plus the
`datetime` constructor's validation. -/
def strptimeDMY (s : String) : Except String Date :=
  match parseDMY s.toList with
  | none => .error "time data does not match format"
  | some (d, m, y) =>
    if y = 0 then .error "year 0 is out of range"
    else if daysInMonth y m < d then .error "day is out of range for month"
    else .ok ⟨y, m, d⟩

/-! ### Field validators (`Name`, `Phone`, `Birthday` constructors) -/

/-- Model of `str.isdigit()` over the program's (ASCII) alphabet: nonempty and all
characters digits. -/
def pyIsDigit (s : String) : Bool :=
  !s.toList.isEmpty && s.toList.all Char.isDigit

/-- Model of `str.lower()` over the program's (ASCII) alphabet. -/
def pyLower (s : String) : String := ⟨s.data.map Char.toLower⟩

/-- Model of `Name.__init__`: rejects the empty string. -/
def validateName (s : String) : Except String String :=
  if s = "" then .error "Name can't be empty" else .ok s

/-- Model of `Phone.__init__`: `value.isdigit() and len(value) == 10`. -/
def validatePhone (s : String) : Except String String :=
  if pyIsDigit s && s.length == 10 then .ok s
  else .error "Phone number must be 10 digits"

/-- Model of `Birthday.__init__`: `strptime(value, "%d.%m.%Y")`, any `ValueError`
replaced by the fixed message. -/
def validateBirthday (s : String) : Except String String :=
  match strptimeDMY s with
  | .ok _ => .ok s
  | .error _ => .error "Invalid date format. Use DD.MM.YYYY"

/-! ### Records and the address book -/

/-- A `Record`: a validated name, the list of `Phone.value` strings in
insertion order, and the optional `Birthday.value` string. -/
structure ContactRecord where
  name : String
  phones : List String
  birthday : Option String
deriving DecidableEq, Repr

/-- The `dict` inside `AddressBook` (a `UserDict`): key-value pairs in
insertion order. -/
abbrev AddressBook := List (String × ContactRecord)

/-- Model of `dict` update `data[k] = v`: overwrite in place if the key is present,
else append. -/
def dictInsert : AddressBook → String → ContactRecord → AddressBook
  | [], k, v => [(k, v)]
  | (k', v') :: rest, k, v =>
    if k' = k then (k, v) :: rest else (k', v') :: dictInsert rest k v

/-- Model of `dict.get(k)`. -/
def dictGet : AddressBook → String → Option ContactRecord
  | [], _ => none
  | (k', v') :: rest, k => if k' = k then some v' else dictGet rest k

/-- Model of `AddressBook.add_record`: keyed by the record's name as stored
(original casing). -/
def AddressBook.add_record (book : AddressBook) (r : ContactRecord) : AddressBook :=
  dictInsert book r.name r

/-- Model of `AddressBook.find`: looks up `name.lower()`. -/
def AddressBook.find (book : AddressBook) (name : String) : Option ContactRecord :=
  dictGet book (pyLower name)

/-- Model of `Record.edit_phone`: replace the first phone equal to `old` by the
validated `new`; `ValueError` if `old` is absent or `new` invalid.  The
record is unchanged in both error cases (the phone found is overwritten only
after `Phone(new_phone)` succeeded). -/
def ContactRecord.edit_phone (r : ContactRecord) (old new : String) :
    Except String ContactRecord :=
  match r.phones.findIdx? (· == old) with
  | some i =>
    match validatePhone new with
    | .ok np => .ok { r with phones := r.phones.set i np }
    | .error e => .error e
  | none => .error "Phone number not found"

/-- Model of `Record.__str__`. -/
def ContactRecord.toDisplay (r : ContactRecord) : String :=
  "Contact name: " ++ r.name ++ ", Phones: " ++ String.intercalate "; " r.phones ++
    (match r.birthday with
     | some b => ", Birthday: " ++ b
     | none => "")

/-! ### The upcoming-birthdays query -/

/-- The body of the loop of `get_upcoming_birthdays` for one record, with
`today` passed explicitly (`datetime.today().date()` at call time):
parse the stored birthday, replace its year by today's year, roll over to the
next year when strictly before today, keep it when within 7 days, and shift a
weekend congratulation date to the following Monday.  Each `ValueError`
raised inside the loop aborts the whole call. -/
def upcomingStep (today : Date) (r : ContactRecord) :
    Except String (Option (String × String)) :=
  match r.birthday with
  | none => .ok none
  | some bs =>
    match strptimeDMY bs with
    | .error e => .error e
    | .ok p =>
      match p.replaceYear today.year with
      | .error e => .error e
      | .ok b1 =>
        match (if b1.ltb today then p.replaceYear (today.year + 1) else .ok b1) with
        | .error e => .error e
        | .ok b =>
          if 0 ≤ b.diffDays today ∧ b.diffDays today ≤ 7 then
            .ok (some (r.name,
              strftimeDMY (if 5 ≤ b.weekday then b.addDays (7 - b.weekday) else b)))
          else .ok none

/-- Model of `AddressBook.get_upcoming_birthdays`, iterating the records in insertion
order; an exception raised at any record propagates out of the call. -/
def get_upcoming_birthdays (today : Date) :
    AddressBook → Except String (List (String × String))
  | [] => .ok []
  | (_, r) :: rest =>
    match upcomingStep today r with
    | .error e => .error e
    | .ok entry =>
      match get_upcoming_birthdays today rest with
      | .error e => .error e
      | .ok tail =>
        .ok (match entry with
             | some x => x :: tail
             | none => tail)

/-! ### Command handlers

Each handler inlines its `@input_error(required_args, error_message)` guard:
fewer arguments than required returns the fixed message untouched; a
`ValueError` escaping the body is returned as its message string. -/

/-- Model of `add_contact` (command `add`, required_args 2). -/
def add_contact (args : List String) (book : AddressBook) : String × AddressBook :=
  if args.length < 2 then ("Write name and phone, please", book)
  else
    match args with
    | name :: phone :: _ =>
      (match book.find name with
       | some r =>
         (match validatePhone phone with
          | .ok p =>
            ("Contact updated.", dictInsert book (pyLower name) { r with phones := r.phones ++ [p] })
          | .error e => (e, book))
       | none =>
         (match validateName name with
          | .error e => (e, book)
          | .ok _ =>
            let r : ContactRecord := ⟨name, [], none⟩
            let book1 := book.add_record r
            match validatePhone phone with
            | .ok p => ("Contact added.", dictInsert book1 name { r with phones := [p] })
            | .error e => (e, book1)))
    | _ => ("Write name and phone, please", book)

/-- Model of `change_contact` (command `change`, required_args 3). -/
def change_contact (args : List String) (book : AddressBook) : String × AddressBook :=
  if args.length < 3 then ("Write name, old phone, and new phone, please", book)
  else
    match args with
    | name :: old :: new :: _ =>
      (match book.find name with
       | some r =>
         (match r.edit_phone old new with
          | .ok r' => ("Phone number updated.", dictInsert book (pyLower name) r')
          | .error e => (e, book))
       | none => ("Contact not found.", book))
    | _ => ("Write name, old phone, and new phone, please", book)

/-- Model of `show_phone` (command `phone`, required_args 1). -/
def show_phone (args : List String) (book : AddressBook) : String × AddressBook :=
  if args.length < 1 then ("Write name, please", book)
  else
    match args with
    | name :: _ =>
      (match book.find name with
       | some r => (String.intercalate ", " r.phones, book)
       | none => ("Contact not found.", book))
    | _ => ("Write name, please", book)

/-- Model of `show_all` (command `all`, required_args 0). -/
def show_all (_args : List String) (book : AddressBook) : String × AddressBook :=
  match book with
  | [] => ("Address book is empty.", book)
  | _ => (String.intercalate "\n" (book.map (fun e => e.2.toDisplay)), book)

/-- Model of `add_birthday` handler (command `add-birthday`, required_args 2). -/
def add_birthday (args : List String) (book : AddressBook) : String × AddressBook :=
  if args.length < 2 then ("Write name and birthday, please", book)
  else
    match args with
    | name :: bday :: _ =>
      (match book.find name with
       | some r =>
         (match validateBirthday bday with
          | .ok b => ("Birthday added.", dictInsert book (pyLower name) { r with birthday := some b })
          | .error e => (e, book))
       | none => ("Contact not found.", book))
    | _ => ("Write name and birthday, please", book)

/-- Model of `show_birthday` (command `show-birthday`, required_args 1). -/
def show_birthday (args : List String) (book : AddressBook) : String × AddressBook :=
  if args.length < 1 then ("Write name, please", book)
  else
    match args with
    | name :: _ =>
      (match book.find name with
       | some r =>
         (match r.birthday with
          | some b => (b, book)
          | none => ("No birthday found.", book))
       | none => ("No birthday found.", book))
    | _ => ("Write name, please", book)

/-- Model of `birthdays` handler (command `birthdays`, required_args 0), with `today`
passed explicitly.  A `ValueError` raised by `get_upcoming_birthdays` is
caught by the decorator and returned as its message. -/
def birthdays (today : Date) (_args : List String) (book : AddressBook) :
    String × AddressBook :=
  match get_upcoming_birthdays today book with
  | .error e => (e, book)
  | .ok l =>
    (if l.isEmpty then "No upcoming birthdays."
     else String.intercalate "\n" (l.map (fun b => b.1 ++ " - " ++ b.2)), book)

/-! ### Specification-side definitions

These follow the words of the specification and of the claims under
scrutiny (not the code); they are compared against the code-side
definitions above. -/

/-- From the spec's words: the string strictly matches `DD.MM.YYYY`
(zero-padded two-digit day and month, four-digit year) and denotes a real
calendar date. -/
def specStrictBirthday (s : String) : Bool :=
  match s.toList with
  | [d1, d2, q1, m1, m2, q2, y1, y2, y3, y4] =>
    q1 == '.' && q2 == '.' &&
    [d1, d2, m1, m2, y1, y2, y3, y4].all Char.isDigit &&
    (let d := 10 * digitVal d1 + digitVal d2
     let m := 10 * digitVal m1 + digitVal m2
     let y := 1000 * digitVal y1 + 100 * digitVal y2 + 10 * digitVal y3 + digitVal y4
     1 ≤ d && 1 ≤ m && m ≤ 12 && 1 ≤ y && d ≤ daysInMonth y m)
  | _ => false

/-- A day token of the format `%d`: one nonzero digit, two digits whose
value is 1..31, or a blank followed by a nonzero digit. -/
def dayToken : List Char → Bool
  | [a] => a.isDigit && a != '0'
  | [a, b] =>
    (a == ' ' && b.isDigit && b != '0') ||
    (a.isDigit && b.isDigit && decide (1 ≤ 10 * digitVal a + digitVal b) &&
      decide (10 * digitVal a + digitVal b ≤ 31))
  | _ => false

/-- The day value a day token denotes. -/
def dayTokenVal : List Char → Nat
  | [a] => digitVal a
  | [a, b] => if a == ' ' then digitVal b else 10 * digitVal a + digitVal b
  | _ => 0

/-- A month token of the format `%m`: one nonzero digit, or two digits whose
value is 1..12. -/
def monthToken : List Char → Bool
  | [a] => a.isDigit && a != '0'
  | [a, b] =>
    a.isDigit && b.isDigit && decide (1 ≤ 10 * digitVal a + digitVal b) &&
      decide (10 * digitVal a + digitVal b ≤ 12)
  | _ => false

/-- The month value a month token denotes. -/
def monthTokenVal : List Char → Nat
  | [a] => digitVal a
  | [a, b] => 10 * digitVal a + digitVal b
  | _ => 0

/-- A year token of the format `%Y`: exactly four digits. -/
def yearToken (y : List Char) : Bool :=
  y.length == 4 && y.all Char.isDigit

/-- The year value a year token denotes. -/
def yearTokenVal : List Char → Nat
  | [a, b, c, d] => 1000 * digitVal a + 100 * digitVal b + 10 * digitVal c + digitVal d
  | _ => 0

/-- The amended shape of an accepted birthday string: day token, dot, month
token, dot, four-digit year token, and the three values denote a real
calendar date of the `datetime` range (year at least 1). -/
def AmendedBirthdayFormat (s : String) : Prop :=
  ∃ d m y : List Char,
    s.toList = d ++ '.' :: (m ++ '.' :: y) ∧
    dayToken d = true ∧ monthToken m = true ∧ yearToken y = true ∧
    1 ≤ yearTokenVal y ∧
    dayTokenVal d ≤ daysInMonth (yearTokenVal y) (monthTokenVal m)

/-- From the claim's words: the occurrence of a birthday `p` relative to
`today` is `p` with its year replaced by today's year, advanced to the next
year when strictly before today. -/
def specOccurrence (today p : Date) : Date :=
  let b1 : Date := ⟨today.year, p.month, p.day⟩
  if b1.ltb today then ⟨today.year + 1, p.month, p.day⟩ else b1

/-- From the claim's words: the congratulation date is the occurrence,
shifted forward to the following Monday when it falls on Saturday or
Sunday. -/
def specCongrats (b : Date) : Date :=
  if 5 ≤ b.weekday then b.addDays (7 - b.weekday) else b

/-- From the claim's words: the entry emitted for one record, when the
record is to be included: its birthday's occurrence lies at most 7 days
(and not less than 0 days) from today, and the emitted date is the
congratulation date formatted as `DD.MM.YYYY`. -/
def specEntry (today : Date) (r : ContactRecord) : Option (String × String) :=
  match r.birthday with
  | none => none
  | some bs =>
    match strptimeDMY bs with
    | .error _ => none
    | .ok p =>
      let b := specOccurrence today p
      if 0 ≤ b.diffDays today ∧ b.diffDays today ≤ 7 then
        some (r.name, strftimeDMY (specCongrats b))
      else none

/-- Calling the `add` handler once per phone of `ps`, for the name `name`,
threading the book through. -/
def addAll (name : String) (ps : List String) (book : AddressBook) : AddressBook :=
  ps.foldl (fun b p => (add_contact [name, p] b).2) book

/-- A book reached through the handlers alone: one contact whose stored
birthday is February 29 of a leap year. -/
def leapBook : AddressBook :=
  (add_birthday ["mark", "29.02.2024"] (add_contact ["mark", "1234567890"] []).2).2

/-! ### Helper lemmas -/

theorem dictGet_insert (b : AddressBook) (k : String) (v : ContactRecord) (q : String) :
    dictGet (dictInsert b k v) q = if k = q then some v else dictGet b q := by
  induction b with
  | nil => simp [dictInsert, dictGet]
  | cons hd tl ih =>
    obtain ⟨k', v'⟩ := hd
    by_cases hk : k' = k
    · subst hk
      simp only [dictInsert, if_pos rfl, dictGet]
      by_cases hq : k' = q
      · simp [hq]
      · simp [hq]
    · simp only [dictInsert, if_neg hk, dictGet]
      by_cases hq : k' = q
      · subst hq
        have hne : ¬ k' = k := hk
        rw [if_pos rfl, if_neg (fun h : k = k' => hne h.symm), if_pos rfl]
      · rw [if_neg hq, if_neg hq, ih]

theorem dictInsert_insert (b : AddressBook) (k : String) (v w : ContactRecord) :
    dictInsert (dictInsert b k v) k w = dictInsert b k w := by
  induction b with
  | nil => simp [dictInsert]
  | cons hd tl ih =>
    obtain ⟨k', v'⟩ := hd
    by_cases hk : k' = k
    · simp [dictInsert, hk]
    · simp [dictInsert, hk, ih]

theorem dictInsert_self (b : AddressBook) (k : String) (v : ContactRecord)
    (h : dictGet b k = some v) : dictInsert b k v = b := by
  induction b with
  | nil => simp [dictGet] at h
  | cons hd tl ih =>
    obtain ⟨k', v'⟩ := hd
    by_cases hk : k' = k
    · subst hk
      simp [dictGet] at h
      simp [dictInsert, h]
    · simp [dictGet, hk] at h
      simp [dictInsert, hk, ih h]

theorem string_length_toList (s : String) : s.length = s.toList.length := rfl

theorem validatePhone_spec (s : String) :
    validatePhone s =
      if s.length = 10 ∧ s.toList.all Char.isDigit = true then Except.ok s
      else Except.error "Phone number must be 10 digits" := by
  by_cases h : s.length = 10 ∧ s.toList.all Char.isDigit = true
  · obtain ⟨h1, h2⟩ := h
    have hne : s.toList.isEmpty = false := by
      cases he : s.toList with
      | nil =>
        exfalso
        rw [string_length_toList, he] at h1
        simp at h1
      | cons c cs => rfl
    have hb : (pyIsDigit s && s.length == 10) = true := by
      unfold pyIsDigit
      rw [hne, h2, h1]
      rfl
    unfold validatePhone
    rw [if_pos hb, if_pos ⟨h1, h2⟩]
  · have hb : (pyIsDigit s && s.length == 10) = false := by
      cases hx : (pyIsDigit s && s.length == 10) with
      | false => rfl
      | true =>
        exfalso
        apply h
        unfold pyIsDigit at hx
        simp only [Bool.and_eq_true, Bool.not_eq_eq_eq_not, Bool.not_false] at hx
        obtain ⟨⟨hn, hall⟩, hlen⟩ := hx
        exact ⟨by simpa using hlen, hall⟩
    unfold validatePhone
    rw [if_neg (by rw [hb]; exact Bool.false_ne_true), if_neg h]

/-! ### The claims -/

/-- C1: phone validation succeeds exactly on strings of length 10 whose
characters are all decimal digits, and fails with the message
"Phone number must be 10 digits" otherwise. -/
theorem phone_validation_iff (s : String) :
    validatePhone s =
      if s.length = 10 ∧ s.toList.all Char.isDigit = true then Except.ok s
      else Except.error "Phone number must be 10 digits" :=
  validatePhone_spec s

/-- C4 (counterexample): a record added under the mixed-case name "Bob" is
retrievable neither via `find "bob"` nor via `find "Bob"`: both lookups
lowercase the query, but the record is stored under the key "Bob". -/
theorem find_after_mixed_case_add_fails :
    (AddressBook.add_record [] ⟨"Bob", ["1234567890"], none⟩).find "bob" = none ∧
    (AddressBook.add_record [] ⟨"Bob", ["1234567890"], none⟩).find "Bob" = none := by
  decide

/-- C4 (amended): `find` after `add_record` returns the added record exactly
when the lowercased query equals the record's stored (case-preserved) name;
otherwise the lookup falls through to the previous book. -/
theorem find_after_add_record (book : AddressBook) (r : ContactRecord) (q : String) :
    (book.add_record r).find q =
      if r.name = pyLower q then some r else book.find q := by
  unfold AddressBook.find AddressBook.add_record
  rw [dictGet_insert]

/-- C5 (counterexample): `change` on an existing contact whose phones do not
contain the old phone returns "Phone number not found" with no trailing
period, not the spec's "Phone number not found.". -/
theorem change_missing_phone_message :
    change_contact ["kate", "0000000000", "1111111111"]
        [("kate", ⟨"kate", ["1234567890"], none⟩)] =
      ("Phone number not found", [("kate", ⟨"kate", ["1234567890"], none⟩)]) ∧
    "Phone number not found" ≠ "Phone number not found." := by
  decide

/-- C5 (amended): the `change` handler returns exactly "Contact not found."
when no record is found for the name, and exactly "Phone number not found"
(no trailing period) when the record exists but none of its phones equals
the old phone; in both failure cases the book is unchanged. -/
theorem change_contact_failure_cases (name old new : String) (rest : List String)
    (book : AddressBook) (r : ContactRecord) :
    (book.find name = none →
      change_contact (name :: old :: new :: rest) book = ("Contact not found.", book)) ∧
    (book.find name = some r → old ∉ r.phones →
      change_contact (name :: old :: new :: rest) book = ("Phone number not found", book)) := by
  have hguard : ¬ (name :: old :: new :: rest).length < 3 := by
    simp only [List.length_cons]
    omega
  constructor
  · intro hf
    unfold change_contact
    rw [if_neg hguard]
    simp only [hf]
  · intro hf hold
    have hidx : r.phones.findIdx? (· == old) = none := by
      rw [List.findIdx?_eq_none_iff]
      intro x hx
      simp only [Bool.not_eq_true, beq_eq_false_iff_ne]
      intro hxe
      exact hold (hxe ▸ hx)
    unfold change_contact
    rw [if_neg hguard]
    simp only [hf, ContactRecord.edit_phone, hidx]

/-- C5 (witness): both failure cases at concrete inputs. -/
theorem change_contact_failure_cases_witness :
    change_contact ["bob", "1111111111", "2222222222"]
        [("kate", ⟨"kate", ["1234567890"], none⟩)] =
      ("Contact not found.", [("kate", ⟨"kate", ["1234567890"], none⟩)]) ∧
    change_contact ["kate", "0000000000", "1111111111"]
        [("kate", ⟨"kate", ["1234567890"], none⟩)] =
      ("Phone number not found", [("kate", ⟨"kate", ["1234567890"], none⟩)]) :=
  ⟨(change_contact_failure_cases "bob" "1111111111" "2222222222" []
      [("kate", ⟨"kate", ["1234567890"], none⟩)] ⟨"kate", ["1234567890"], none⟩).1
      (by decide),
   (change_contact_failure_cases "kate" "0000000000" "1111111111" []
      [("kate", ⟨"kate", ["1234567890"], none⟩)] ⟨"kate", ["1234567890"], none⟩).2
      (by decide) (by decide)⟩

/-- C8: every handler with a positive declared minimum argument count,
given fewer arguments, returns its fixed usage message and leaves the book
exactly unchanged. -/
theorem arity_guard_no_partial_processing (args : List String) (book : AddressBook) :
    (args.length < 2 →
      add_contact args book = ("Write name and phone, please", book)) ∧
    (args.length < 3 →
      change_contact args book = ("Write name, old phone, and new phone, please", book)) ∧
    (args.length < 1 →
      show_phone args book = ("Write name, please", book)) ∧
    (args.length < 2 →
      add_birthday args book = ("Write name and birthday, please", book)) ∧
    (args.length < 1 →
      show_birthday args book = ("Write name, please", book)) := by
  refine ⟨fun h => ?_, fun h => ?_, fun h => ?_, fun h => ?_, fun h => ?_⟩
  · unfold add_contact
    rw [if_pos h]
  · unfold change_contact
    rw [if_pos h]
  · unfold show_phone
    rw [if_pos h]
  · unfold add_birthday
    rw [if_pos h]
  · unfold show_birthday
    rw [if_pos h]

/-- C8 (witness): the empty argument list is below every positive minimum. -/
theorem arity_guard_witness :
    add_contact [] [] = ("Write name and phone, please", []) ∧
    change_contact [] [] = ("Write name, old phone, and new phone, please", []) ∧
    show_phone [] [] = ("Write name, please", []) ∧
    add_birthday [] [] = ("Write name and birthday, please", []) ∧
    show_birthday [] [] = ("Write name, please", []) :=
  ⟨(arity_guard_no_partial_processing [] []).1 (by decide),
   (arity_guard_no_partial_processing [] []).2.1 (by decide),
   (arity_guard_no_partial_processing [] []).2.2.1 (by decide),
   (arity_guard_no_partial_processing [] []).2.2.2.1 (by decide),
   (arity_guard_no_partial_processing [] []).2.2.2.2 (by decide)⟩

/-- C9: calling `add` for a name not in the book with an invalid phone
returns the validation message, yet a fresh record for that name, with an
empty phone list, has been inserted: the failed command mutates the book. -/
theorem failed_add_inserts_empty_record (name phone : String) (rest : List String)
    (book : AddressBook) (hname : name ≠ "") (hfind : book.find name = none)
    (hbad : ¬ (phone.length = 10 ∧ phone.toList.all Char.isDigit = true)) :
    add_contact (name :: phone :: rest) book =
      ("Phone number must be 10 digits", dictInsert book name ⟨name, [], none⟩) := by
  have hguard : ¬ (name :: phone :: rest).length < 2 := by
    simp only [List.length_cons]
    omega
  have hp : validatePhone phone = .error "Phone number must be 10 digits" := by
    rw [validatePhone_spec, if_neg hbad]
  unfold add_contact
  rw [if_neg hguard]
  simp only [hfind, validateName, hname, if_neg hname, hp, AddressBook.add_record]
  simp

/-- C9 (witness): adding "mark" with the invalid phone "123" to the empty
book returns the validation message and leaves a phoneless "mark" record. -/
theorem failed_add_inserts_empty_record_witness :
    add_contact ["mark", "123"] [] =
      ("Phone number must be 10 digits", [("mark", ⟨"mark", [], none⟩)]) :=
  failed_add_inserts_empty_record "mark" "123" [] [] (by decide) (by decide) (by decide)

/-- C10: in the reachable state `leapBook` (a record whose stored birthday
is 29.02.2024), with today in a non-leap year, `get_upcoming_birthdays`
raises at the year-replacement step, and the `birthdays` handler hence
returns the underlying date-library error text instead of a listing or
"No upcoming birthdays.". -/
theorem leap_birthday_raises :
    leapBook = [("mark", ⟨"mark", ["1234567890"], some "29.02.2024"⟩)] ∧
    get_upcoming_birthdays ⟨2023, 10, 12⟩ leapBook =
      .error "day is out of range for month" ∧
    birthdays ⟨2023, 10, 12⟩ [] leapBook =
      ("day is out of range for month", leapBook) ∧
    "day is out of range for month" ≠ "No upcoming birthdays." := by
  decide

/-- One successful `add` call on a name the book already resolves: the
record gains the phone and the reply is "Contact updated.". -/
theorem add_contact_found (name p : String) (book : AddressBook) (r : ContactRecord)
    (hf : book.find name = some r) (hp : validatePhone p = .ok p) :
    add_contact [name, p] book =
      ("Contact updated.",
        dictInsert book (pyLower name) { r with phones := r.phones ++ [p] }) := by
  unfold add_contact
  rw [if_neg (by simp)]
  simp only [hf, hp]

/-- One successful `add` call on a name the book does not resolve: a fresh
record with just that phone is stored under the name's original casing. -/
theorem add_contact_new (name p : String) (book : AddressBook)
    (hf : book.find name = none) (hname : name ≠ "") (hp : validatePhone p = .ok p) :
    add_contact [name, p] book =
      ("Contact added.", dictInsert book name ⟨name, [p], none⟩) := by
  unfold add_contact
  rw [if_neg (by simp)]
  simp only [hf, validateName, hname, if_neg hname, hp, AddressBook.add_record]
  simp only [if_neg (fun h : False => h)]
  rw [dictInsert_insert]

/-- Looking up a just-inserted key through `find`. -/
theorem find_dictInsert (book : AddressBook) (k : String) (v : ContactRecord)
    (q : String) (h : pyLower q = k) :
    (dictInsert book k v).find q = some v := by
  unfold AddressBook.find
  rw [h, dictGet_insert, if_pos rfl]

/-- C6 (counterexample): for the mixed-case name "Bob", the second `add`
call answers "Contact added." (not "Contact updated.") and the first phone
has been lost: the second call could not find the record stored under
"Bob" via the lowercased lookup key and overwrote it. -/
theorem second_add_mixed_case_fails :
    add_contact ["Bob", "2222222222"] (add_contact ["Bob", "1111111111"] []).2 =
      ("Contact added.", [("Bob", ⟨"Bob", ["2222222222"], none⟩)]) ∧
    "Contact added." ≠ "Contact updated." := by
  decide

/-- C6 (amended): for a nonempty name equal to its own lowercasing and two
distinct valid phones, the second `add` call answers "Contact updated." and
the record then holds both phones. -/
theorem second_add_updates (name p1 p2 : String) (book : AddressBook)
    (hlow : pyLower name = name) (hname : name ≠ "")
    (h1 : validatePhone p1 = .ok p1) (h2 : validatePhone p2 = .ok p2)
    (hne : p1 ≠ p2) :
    (add_contact [name, p2] (add_contact [name, p1] book).2).1 = "Contact updated." ∧
    ∃ r, (add_contact [name, p2] (add_contact [name, p1] book).2).2.find name = some r ∧
      p1 ∈ r.phones ∧ p2 ∈ r.phones := by
  cases hf : book.find name with
  | none =>
    have s1 : (add_contact [name, p1] book).2 =
        dictInsert book name ⟨name, [p1], none⟩ := by
      rw [add_contact_new name p1 book hf hname h1]
    have hf2 : (dictInsert book name ⟨name, [p1], none⟩).find name =
        some ⟨name, [p1], none⟩ :=
      find_dictInsert _ _ _ _ hlow
    have s2 : add_contact [name, p2] (dictInsert book name ⟨name, [p1], none⟩) =
        ("Contact updated.", dictInsert book name ⟨name, [p1, p2], none⟩) := by
      rw [add_contact_found name p2 _ _ hf2 h2, hlow, dictInsert_insert]
      rfl
    rw [s1, s2]
    exact ⟨rfl, ⟨name, [p1, p2], none⟩, find_dictInsert _ _ _ _ hlow, by simp, by simp⟩
  | some r0 =>
    have s1 : (add_contact [name, p1] book).2 =
        dictInsert book name { r0 with phones := r0.phones ++ [p1] } := by
      rw [add_contact_found name p1 book r0 hf h1, hlow]
    have hf2 : (dictInsert book name { r0 with phones := r0.phones ++ [p1] }).find name =
        some { r0 with phones := r0.phones ++ [p1] } :=
      find_dictInsert _ _ _ _ hlow
    have s2 : add_contact [name, p2] (dictInsert book name { r0 with phones := r0.phones ++ [p1] }) =
        ("Contact updated.",
          dictInsert book name { r0 with phones := r0.phones ++ [p1] ++ [p2] }) := by
      rw [add_contact_found name p2 _ _ hf2 h2, hlow, dictInsert_insert]
    rw [s1, s2]
    exact ⟨rfl, { r0 with phones := r0.phones ++ [p1] ++ [p2] },
      find_dictInsert _ _ _ _ hlow, by simp, by simp⟩

/-- C6 (witness): the amended statement at the name "mark" with two
concrete phones over the empty book. -/
theorem second_add_updates_witness :
    (add_contact ["mark", "2222222222"] (add_contact ["mark", "1111111111"] []).2).1 =
      "Contact updated." ∧
    ∃ r, (add_contact ["mark", "2222222222"]
        (add_contact ["mark", "1111111111"] []).2).2.find "mark" = some r ∧
      "1111111111" ∈ r.phones ∧ "2222222222" ∈ r.phones :=
  second_add_updates "mark" "1111111111" "2222222222" []
    (by decide) (by decide) (by decide) (by decide) (by decide)

/-- Adding phones one at a time to a record the dictionary already holds
appends them, in order, to that record's phone list. -/
theorem addAll_found (name : String) (hlow : pyLower name = name) :
    ∀ (qs : List String) (b : AddressBook) (r : ContactRecord),
      dictGet b name = some r → (∀ p ∈ qs, validatePhone p = .ok p) →
      addAll name qs b = dictInsert b name { r with phones := r.phones ++ qs } := by
  intro qs
  induction qs with
  | nil =>
    intro b r hg _
    simp only [addAll, List.foldl_nil, List.append_nil]
    exact (dictInsert_self b name r hg).symm
  | cons q qs ih =>
    intro b r hg hv
    have hf : AddressBook.find b name = some r := by
      unfold AddressBook.find
      rw [hlow]
      exact hg
    have s1 : (add_contact [name, q] b).2 =
        dictInsert b name { r with phones := r.phones ++ [q] } := by
      rw [add_contact_found name q b r hf (hv q (by simp)), hlow]
    have hstep : addAll name (q :: qs) b =
        addAll name qs (add_contact [name, q] b).2 := by
      simp only [addAll, List.foldl_cons]
    have hg2 : dictGet (dictInsert b name { r with phones := r.phones ++ [q] }) name =
        some { r with phones := r.phones ++ [q] } := by
      rw [dictGet_insert, if_pos rfl]
    rw [hstep, s1, ih _ _ hg2 (fun p hp => hv p (by simp [hp])), dictInsert_insert]
    simp [List.append_assoc]

/-- C7 (counterexample): for the mixed-case name "Bob", one `add` followed
by `phone Bob` answers "Contact not found." instead of the added phone. -/
theorem round_trip_mixed_case_fails :
    show_phone ["Bob"] (addAll "Bob" ["1111111111"] []) =
      ("Contact not found.", [("Bob", ⟨"Bob", ["1111111111"], none⟩)]) ∧
    "Contact not found." ≠ "1111111111" := by
  decide

/-- C7 (amended): for a nonempty name equal to its own lowercasing, absent
from the book, and a nonempty sequence of valid phones added via the `add`
handler, the `phone` handler returns exactly those phones, comma-joined in
addition order, leaving the book unchanged. -/
theorem round_trip_phones (name : String) (ps : List String) (book : AddressBook)
    (hlow : pyLower name = name) (hname : name ≠ "")
    (hv : ∀ p ∈ ps, validatePhone p = .ok p) (hne : ps ≠ [])
    (hf : book.find name = none) :
    show_phone [name] (addAll name ps book) =
      (String.intercalate ", " ps, addAll name ps book) := by
  cases ps with
  | nil => exact absurd rfl hne
  | cons p qs =>
    have s1 := add_contact_new name p book hf hname (hv p (by simp))
    have hstep : addAll name (p :: qs) book =
        addAll name qs (dictInsert book name ⟨name, [p], none⟩) := by
      simp only [addAll, List.foldl_cons]
      rw [s1]
    have hg : dictGet (dictInsert book name ⟨name, [p], none⟩) name =
        some ⟨name, [p], none⟩ := by
      rw [dictGet_insert, if_pos rfl]
    have h2 : addAll name qs (dictInsert book name ⟨name, [p], none⟩) =
        dictInsert book name ⟨name, p :: qs, none⟩ := by
      rw [addAll_found name hlow qs _ _ hg (fun q hq => hv q (by simp [hq])),
        dictInsert_insert]
      rfl
    rw [hstep, h2]
    unfold show_phone
    rw [if_neg (by simp)]
    simp only [find_dictInsert book name ⟨name, p :: qs, none⟩ name hlow]

/-- C7 (witness): two phones added for "mark" over the empty book come back
comma-joined in addition order. -/
theorem round_trip_phones_witness :
    show_phone ["mark"] (addAll "mark" ["1111111111", "2222222222"] []) =
      (String.intercalate ", " ["1111111111", "2222222222"],
        addAll "mark" ["1111111111", "2222222222"] []) :=
  round_trip_phones "mark" ["1111111111", "2222222222"] []
    (by decide) (by decide) (by decide) (by decide) (by decide)

/-- The per-record loop body of `get_upcoming_birthdays`, when it raises no
exception, computes exactly the claim's entry: occurrence (year replaced,
rolled to next year when strictly before today), 0..7-day window, weekend
shift to Monday, `DD.MM.YYYY` formatting. -/
theorem upcomingStep_spec (today : Date) (r : ContactRecord)
    (o : Option (String × String)) (h : upcomingStep today r = .ok o) :
    specEntry today r = o := by
  unfold upcomingStep at h
  unfold specEntry
  cases hb : r.birthday with
  | none =>
    simp only [hb, Except.ok.injEq] at h
    subst h
    rfl
  | some bs =>
    simp only [hb] at h ⊢
    cases hp : strptimeDMY bs with
    | error e =>
      simp only [hp] at h
      exact Except.noConfusion h
    | ok p =>
      simp only [hp] at h ⊢
      cases hr1 : p.replaceYear today.year with
      | error e =>
        simp only [hr1] at h
        exact Except.noConfusion h
      | ok b1 =>
        simp only [hr1] at h
        have hb1 : b1 = ⟨today.year, p.month, p.day⟩ := by
          unfold Date.replaceYear at hr1
          split at hr1
          · exact Except.noConfusion hr1
          · split at hr1
            · exact Except.noConfusion hr1
            · injection hr1 with hr1
              exact hr1.symm
        subst hb1
        unfold specOccurrence
        cases hlt : Date.ltb ⟨today.year, p.month, p.day⟩ today with
        | false =>
          simp only [hlt, Bool.false_eq_true, if_false] at h ⊢
          by_cases hw : 0 ≤ Date.diffDays ⟨today.year, p.month, p.day⟩ today ∧
              Date.diffDays ⟨today.year, p.month, p.day⟩ today ≤ 7
          · rw [if_pos hw] at h ⊢
            injection h with h
          · rw [if_neg hw] at h ⊢
            injection h with h
        | true =>
          simp only [hlt, if_true] at h ⊢
          cases hr2 : p.replaceYear (today.year + 1) with
          | error e =>
            simp only [hr2] at h
            exact Except.noConfusion h
          | ok b2 =>
            simp only [hr2] at h
            have hb2 : b2 = ⟨today.year + 1, p.month, p.day⟩ := by
              unfold Date.replaceYear at hr2
              split at hr2
              · exact Except.noConfusion hr2
              · split at hr2
                · exact Except.noConfusion hr2
                · injection hr2 with hr2
                  exact hr2.symm
            subst hb2
            by_cases hw : 0 ≤ Date.diffDays ⟨today.year + 1, p.month, p.day⟩ today ∧
                Date.diffDays ⟨today.year + 1, p.month, p.day⟩ today ≤ 7
            · rw [if_pos hw] at h ⊢
              injection h with h
            · rw [if_neg hw] at h ⊢
              injection h with h

/-- C3 (counterexample): with today = 01.03.2023, the book holding "anna"
(birthday 05.03.1990, occurrence 05.03.2023, 4 days away, due to be listed
with congratulation date 06.03.2023) and "leap" (birthday 29.02.2024),
`get_upcoming_birthdays` raises instead of returning a list, so no record at
all is included even though the claim requires "anna" to be. -/
theorem upcoming_error_drops_due_entry :
    get_upcoming_birthdays ⟨2023, 3, 1⟩
        [("anna", ⟨"anna", [], some "05.03.1990"⟩),
         ("leap", ⟨"leap", [], some "29.02.2024"⟩)] =
      .error "day is out of range for month" ∧
    specEntry ⟨2023, 3, 1⟩ ⟨"anna", [], some "05.03.1990"⟩ =
      some ("anna", "06.03.2023") := by
  decide

/-- C3 (amended): whenever `get_upcoming_birthdays` returns a list (raises
no exception), that list contains an entry exactly when some record of the
book has a birthday whose occurrence (year replaced by today's year,
advanced to next year if strictly before today) lies 0..7 days from today,
and the entry pairs the record's name with the occurrence shifted to the
following Monday when on a weekend, formatted as DD.MM.YYYY. -/
theorem upcoming_birthdays_membership (today : Date) (book : AddressBook)
    (l : List (String × String))
    (h : get_upcoming_birthdays today book = .ok l) (e : String × String) :
    e ∈ l ↔ ∃ k r, (k, r) ∈ book ∧ specEntry today r = some e := by
  induction book generalizing l with
  | nil =>
    unfold get_upcoming_birthdays at h
    injection h with h
    subst h
    simp
  | cons hd rest ih =>
    obtain ⟨k0, r0⟩ := hd
    unfold get_upcoming_birthdays at h
    cases hs : upcomingStep today r0 with
    | error e0 => rw [hs] at h; exact Except.noConfusion h
    | ok o =>
      rw [hs] at h
      cases ht : get_upcoming_birthdays today rest with
      | error e0 => rw [ht] at h; exact Except.noConfusion h
      | ok tail =>
        rw [ht] at h
        injection h with h
        subst h
        have hspec := upcomingStep_spec today r0 o hs
        have iht := ih tail ht
        cases o with
        | none =>
          rw [iht]
          constructor
          · rintro ⟨k, r, hm, he⟩
            exact ⟨k, r, List.mem_cons_of_mem _ hm, he⟩
          · rintro ⟨k, r, hm, he⟩
            rcases List.mem_cons.mp hm with heq | hm'
            · injection heq with hk hr
              rw [hr] at he
              rw [hspec] at he
              exact Option.noConfusion he
            · exact ⟨k, r, hm', he⟩
        | some x =>
          simp only [List.mem_cons]
          constructor
          · rintro (rfl | hm)
            · exact ⟨k0, r0, Or.inl rfl, by rw [hspec]⟩
            · obtain ⟨k, r, hm', he⟩ := iht.mp hm
              exact ⟨k, r, Or.inr hm', he⟩
          · rintro ⟨k, r, hm, he⟩
            rcases hm with heq | hm'
            · left
              injection heq with hk hr
              rw [hr, hspec] at he
              injection he with he
              exact he.symm
            · right
              exact iht.mpr ⟨k, r, hm', he⟩

/-- C3 (witness): on 10.06.2024 (a Monday), the two-record book of the
spec's test vector returns the list with the Wednesday birthday kept on
12.06.2024 and the Saturday birthday shifted to Monday 17.06.2024, and the
membership equivalence holds for the shifted entry. -/
theorem upcoming_birthdays_membership_witness :
    ("kate", "17.06.2024") ∈ [("mark", "12.06.2024"), ("kate", "17.06.2024")] ↔
      ∃ k r, (k, r) ∈ ([("mark", ⟨"mark", ["1234567890"], some "12.06.1990"⟩),
          ("kate", ⟨"kate", [], some "15.06.1985"⟩)] : AddressBook) ∧
        specEntry ⟨2024, 6, 10⟩ r = some ("kate", "17.06.2024") :=
  upcoming_birthdays_membership ⟨2024, 6, 10⟩
    [("mark", ⟨"mark", ["1234567890"], some "12.06.1990"⟩),
     ("kate", ⟨"kate", [], some "15.06.1985"⟩)]
    [("mark", "12.06.2024"), ("kate", "17.06.2024")]
    (by decide) ("kate", "17.06.2024")

/-! ### Character-level facts for the `strptime` regex -/

theorem isDigit_bounds {c : Char} (h : c.isDigit = true) :
    48 ≤ c.toNat ∧ c.toNat ≤ 57 := by
  simp [Char.isDigit] at h
  exact h

theorem char_toNat_inj {a b : Char} (h : a.toNat = b.toNat) : a = b :=
  Char.eq_of_val_eq (UInt32.ext h)

theorem digit_ne_dot {c : Char} (h : c.isDigit = true) : c ≠ '.' := by
  intro he
  rw [he] at h
  exact absurd h (by decide)

theorem digitVal_le {c : Char} (h : c.isDigit = true) : digitVal c ≤ 9 := by
  have := isDigit_bounds h
  unfold digitVal
  omega

theorem digitVal_pos {c : Char} (h : c.isDigit = true) (h0 : c ≠ '0') :
    1 ≤ digitVal c := by
  have hb := isDigit_bounds h
  have : c.toNat ≠ 48 := fun he => h0 (char_toNat_inj (by rw [he]; rfl))
  unfold digitVal
  omega

theorem char_of_digitVal {c : Char} (h : c.isDigit = true) {n : Nat}
    (hv : digitVal c = n) : c.toNat = 48 + n := by
  have := isDigit_bounds h
  unfold digitVal at hv
  omega

theorem twoCharMonth_dot (a : Char) : twoCharMonth a '.' = false := by
  simp [twoCharMonth, (by decide : ('.' == '0') = false),
    (by decide : ('.' == '1') = false), (by decide : ('.' == '2') = false),
    (by decide : ('.' : Char).isDigit = false)]

theorem twoCharDay_dot (a : Char) : twoCharDay a '.' = false := by
  simp [twoCharDay, (by decide : ('.' == '0') = false),
    (by decide : ('.' == '1') = false),
    (by decide : ('.' : Char).isDigit = false)]

/-! ### Inversion of the `%Y`, `%m`, `%d` token parsers -/

theorem parseYear4_eq_some {l : List Char} {y : Nat} (h : parseYear4 l = some y) :
    yearToken l = true ∧ yearTokenVal l = y := by
  match l with
  | [] => exact absurd h (by simp [parseYear4])
  | [a] => exact absurd h (by simp [parseYear4])
  | [a, b] => exact absurd h (by simp [parseYear4])
  | [a, b, c] => exact absurd h (by simp [parseYear4])
  | a :: b :: c :: d :: e :: t => exact absurd h (by simp [parseYear4])
  | [a, b, c, d] =>
    simp only [parseYear4] at h
    split at h
    · injection h with h
      rename_i hd
      simp only [Bool.and_eq_true] at hd
      obtain ⟨⟨⟨ha, hb⟩, hc⟩, hdd⟩ := hd
      refine ⟨by simp [yearToken, ha, hb, hc, hdd], ?_⟩
      rw [← h]
      rfl
    · exact Option.noConfusion h

theorem parseYear4_of_token {l : List Char} (h : yearToken l = true) :
    parseYear4 l = some (yearTokenVal l) := by
  unfold yearToken at h
  simp only [Bool.and_eq_true, beq_iff_eq] at h
  obtain ⟨hlen, hall⟩ := h
  match l, hlen with
  | [a, b, c, d], _ =>
    simp only [List.all_cons, List.all_nil, Bool.and_eq_true, Bool.and_true] at hall
    simp only [parseYear4]
    rw [if_pos (by simp [hall.1, hall.2.1, hall.2.2.1, hall.2.2.2])]
    rfl

theorem parseMY_eq_some {l : List Char} {m y : Nat} (h : parseMY l = some (m, y)) :
    ∃ mt yt, l = mt ++ '.' :: yt ∧ monthToken mt = true ∧ monthTokenVal mt = m ∧
      yearToken yt = true ∧ yearTokenVal yt = y := by
  match l with
  | [] => exact absurd h (by simp [parseMY])
  | [a] => exact absurd h (by simp [parseMY])
  | a :: b :: rest =>
    simp only [parseMY] at h
    by_cases h2 : twoCharMonth a b = true
    · rw [if_pos h2] at h
      -- two-character month, so the rest must begin with the literal dot
      split at h
      · rename_i rest2
        cases hy4 : parseYear4 rest2 with
        | none => rw [hy4] at h; exact Option.noConfusion h
        | some y' =>
          rw [hy4] at h
          simp only [Option.map_some', Option.some.injEq, Prod.mk.injEq] at h
          obtain ⟨hm, hy⟩ := h
          obtain ⟨hyt, hyv⟩ := parseYear4_eq_some hy4
          refine ⟨[a, b], rest2, rfl, ?_, ?_, hyt, by rw [hyv, hy]⟩
          · -- the regex alternatives `1[0-2]` and `0[1-9]` are month tokens
            rcases (Bool.or_eq_true _ _).mp h2 with h1 | h0
            · simp only [Bool.and_eq_true, Bool.or_eq_true, beq_iff_eq] at h1
              obtain ⟨ha, hb⟩ := h1
              subst ha
              rcases hb with (rfl | rfl) | rfl <;> decide
            · simp only [Bool.and_eq_true, beq_iff_eq, bne_iff_ne] at h0
              obtain ⟨⟨ha, hb⟩, hb0⟩ := h0
              subst ha
              have hp := digitVal_pos hb hb0
              have hl := digitVal_le hb
              have hz : digitVal '0' = 0 := rfl
              simp [monthToken, hb, hz, decide_eq_true_eq,
                (by decide : ('0' : Char).isDigit = true)]
              omega
          · rw [← hm]
            rfl
      · exact Option.noConfusion h
    · rw [if_neg h2] at h
      by_cases hdot : (b == '.' && oneCharMonth a) = true
      · rw [if_pos hdot] at h
        simp only [Bool.and_eq_true, beq_iff_eq] at hdot
        obtain ⟨hb, ha⟩ := hdot
        subst hb
        cases hy4 : parseYear4 rest with
        | none => rw [hy4] at h; exact Option.noConfusion h
        | some y' =>
          rw [hy4] at h
          simp only [Option.map_some', Option.some.injEq, Prod.mk.injEq] at h
          obtain ⟨hm, hy⟩ := h
          obtain ⟨hyt, hyv⟩ := parseYear4_eq_some hy4
          exact ⟨[a], rest, rfl, ha, by rw [← hm]; rfl, hyt, by rw [hyv, hy]⟩
      · rw [if_neg hdot] at h
        exact Option.noConfusion h

theorem digit_char_eq {c : Char} (h : c.isDigit = true) {n : Nat}
    (hv : digitVal c = n) (d : Char) (hd : d.toNat = 48 + n) : c = d :=
  char_toNat_inj (by rw [char_of_digitVal h hv, hd])

theorem two_of_monthToken {a b : Char} (h : monthToken [a, b] = true) :
    twoCharMonth a b = true := by
  simp only [monthToken, Bool.and_eq_true, decide_eq_true_eq] at h
  obtain ⟨⟨⟨ha, hb⟩, h1⟩, h12⟩ := h
  have hda := digitVal_le ha
  have hdb := digitVal_le hb
  apply (Bool.or_eq_true _ _).mpr
  cases hv : digitVal a with
  | zero =>
    have ha0 : a = '0' := digit_char_eq ha hv '0' rfl
    subst ha0
    right
    have hbne : b ≠ '0' := by
      intro he
      subst he
      rw [hv] at h1
      simp [show digitVal '0' = 0 from rfl] at h1
    simp [hb, hbne]
  | succ n =>
    have hn : n = 0 := by omega
    subst hn
    have ha1 : a = '1' := digit_char_eq ha hv '1' rfl
    subst ha1
    left
    rw [hv] at h12
    have hb2 : digitVal b ≤ 2 := by omega
    have : b = '0' ∨ b = '1' ∨ b = '2' := by
      cases hbv : digitVal b with
      | zero => exact Or.inl (digit_char_eq hb hbv '0' rfl)
      | succ k =>
        cases k with
        | zero => exact Or.inr (Or.inl (digit_char_eq hb hbv '1' rfl))
        | succ k2 =>
          cases k2 with
          | zero => exact Or.inr (Or.inr (digit_char_eq hb hbv '2' rfl))
          | succ k3 => rw [hbv] at hb2; omega
    rcases this with rfl | rfl | rfl <;> decide

theorem parseMY_of_tokens {mt yt : List Char} (hm : monthToken mt = true)
    (hy : yearToken yt = true) :
    parseMY (mt ++ '.' :: yt) = some (monthTokenVal mt, yearTokenVal yt) := by
  match mt with
  | [] => exact absurd hm (by simp [monthToken])
  | [a] =>
    simp only [List.cons_append, List.nil_append, parseMY]
    rw [if_neg (by simp [twoCharMonth_dot])]
    have hcond : (('.' == '.') && oneCharMonth a) = true := hm
    rw [if_pos hcond, parseYear4_of_token hy]
    rfl
  | [a, b] =>
    have h2 := two_of_monthToken hm
    simp only [List.cons_append, List.nil_append, parseMY]
    rw [if_pos h2]
    show (parseYear4 yt).map (fun y => (10 * digitVal a + digitVal b, y)) =
      some (monthTokenVal [a, b], yearTokenVal yt)
    rw [parseYear4_of_token hy]
    rfl
  | a :: b :: c :: t => exact absurd hm (by simp [monthToken])

theorem dayToken_of_two {a b : Char} (h : twoCharDay a b = true) :
    dayToken [a, b] = true := by
  simp only [twoCharDay, Bool.or_eq_true, Bool.and_eq_true, Bool.or_eq_true,
    beq_iff_eq, bne_iff_ne] at h
  rcases h with ((h3 | h12) | h0) | hsp
  · obtain ⟨ha, hb⟩ := h3
    subst ha
    rcases hb with rfl | rfl <;> decide
  · obtain ⟨ha, hb⟩ := h12
    have hdb := digitVal_le hb
    rcases ha with rfl | rfl <;>
      · simp [dayToken, hb, decide_eq_true_eq,
          show digitVal '1' = 1 from rfl, show digitVal '2' = 2 from rfl]
        omega
  · obtain ⟨⟨ha, hb⟩, hbne⟩ := h0
    subst ha
    have hdb := digitVal_le hb
    have hdp := digitVal_pos hb hbne
    simp [dayToken, hb, decide_eq_true_eq, show digitVal '0' = 0 from rfl]
    omega
  · obtain ⟨⟨ha, hb⟩, hbne⟩ := hsp
    subst ha
    simp [dayToken, hb, hbne]

theorem two_of_dayToken {a b : Char} (h : dayToken [a, b] = true) :
    twoCharDay a b = true := by
  simp only [dayToken, Bool.or_eq_true, Bool.and_eq_true, beq_iff_eq,
    bne_iff_ne, decide_eq_true_eq] at h
  rcases h with hsp | hdig
  · obtain ⟨⟨ha, hb⟩, hbne⟩ := hsp
    subst ha
    simp [twoCharDay, hb, hbne]
  · obtain ⟨⟨⟨ha, hb⟩, h1⟩, h31⟩ := hdig
    have hda := digitVal_le ha
    have hdb := digitVal_le hb
    apply (Bool.or_eq_true _ _).mpr
    cases hv : digitVal a with
    | zero =>
      have ha0 : a = '0' := digit_char_eq ha hv '0' rfl
      subst ha0
      left
      apply (Bool.or_eq_true _ _).mpr
      right
      have hbne : b ≠ '0' := by
        intro he
        subst he
        rw [hv] at h1
        simp [show digitVal '0' = 0 from rfl] at h1
      simp [hb, hbne]
    | succ n =>
      cases n with
      | zero =>
        have ha1 : a = '1' := digit_char_eq ha hv '1' rfl
        subst ha1
        left
        apply (Bool.or_eq_true _ _).mpr
        left
        apply (Bool.or_eq_true _ _).mpr
        right
        simp [hb]
      | succ n2 =>
        cases n2 with
        | zero =>
          have ha2 : a = '2' := digit_char_eq ha hv '2' rfl
          subst ha2
          left
          apply (Bool.or_eq_true _ _).mpr
          left
          apply (Bool.or_eq_true _ _).mpr
          right
          simp [hb]
        | succ n3 =>
          cases n3 with
          | zero =>
            have ha3 : a = '3' := digit_char_eq ha hv '3' rfl
            subst ha3
            left
            apply (Bool.or_eq_true _ _).mpr
            left
            apply (Bool.or_eq_true _ _).mpr
            left
            rw [hv] at h31
            have hb1 : digitVal b ≤ 1 := by omega
            have : b = '0' ∨ b = '1' := by
              cases hbv : digitVal b with
              | zero => exact Or.inl (digit_char_eq hb hbv '0' rfl)
              | succ k =>
                cases k with
                | zero => exact Or.inr (digit_char_eq hb hbv '1' rfl)
                | succ k2 => rw [hbv] at hb1; omega
            rcases this with rfl | rfl <;> decide
          | succ n4 =>
            rw [hv] at h31
            omega

theorem parseDMY_eq_some {l : List Char} {d m y : Nat}
    (h : parseDMY l = some (d, m, y)) :
    ∃ dt mt yt, l = dt ++ '.' :: (mt ++ '.' :: yt) ∧
      dayToken dt = true ∧ dayTokenVal dt = d ∧
      monthToken mt = true ∧ monthTokenVal mt = m ∧
      yearToken yt = true ∧ yearTokenVal yt = y := by
  match l with
  | [] => exact absurd h (by simp [parseDMY])
  | [a] => exact absurd h (by simp [parseDMY])
  | a :: b :: rest =>
    simp only [parseDMY] at h
    by_cases h2 : twoCharDay a b = true
    · rw [if_pos h2] at h
      split at h
      · rename_i rest2
        cases hmy : parseMY rest2 with
        | none => rw [hmy] at h; exact Option.noConfusion h
        | some my =>
          rw [hmy] at h
          obtain ⟨m', y'⟩ := my
          simp only [Option.map_some', Option.some.injEq, Prod.mk.injEq] at h
          obtain ⟨hdv, hmv', hyv'⟩ := h
          obtain ⟨mt, yt, hl2, hmt, hmv, hyt, hyv⟩ := parseMY_eq_some hmy
          refine ⟨[a, b], mt, yt, by rw [hl2]; rfl, dayToken_of_two h2, ?_, hmt,
            by rw [hmv, hmv'], hyt, by rw [hyv, hyv']⟩
          rw [← hdv]
          rfl
      · exact Option.noConfusion h
    · rw [if_neg h2] at h
      by_cases hdot : (b == '.' && oneCharDay a) = true
      · rw [if_pos hdot] at h
        have hdot' := hdot
        simp only [Bool.and_eq_true, beq_iff_eq] at hdot'
        obtain ⟨hb, ha⟩ := hdot'
        subst hb
        cases hmy : parseMY rest with
        | none => rw [hmy] at h; exact Option.noConfusion h
        | some my =>
          rw [hmy] at h
          obtain ⟨m', y'⟩ := my
          simp only [Option.map_some', Option.some.injEq, Prod.mk.injEq] at h
          obtain ⟨hdv, hmv', hyv'⟩ := h
          obtain ⟨mt, yt, hl2, hmt, hmv, hyt, hyv⟩ := parseMY_eq_some hmy
          exact ⟨[a], mt, yt, by rw [hl2]; rfl, ha, by rw [← hdv]; rfl, hmt,
            by rw [hmv, hmv'], hyt, by rw [hyv, hyv']⟩
      · rw [if_neg hdot] at h
        exact Option.noConfusion h

theorem parseDMY_of_tokens {dt mt yt : List Char} (hd : dayToken dt = true)
    (hm : monthToken mt = true) (hy : yearToken yt = true) :
    parseDMY (dt ++ '.' :: (mt ++ '.' :: yt)) =
      some (dayTokenVal dt, monthTokenVal mt, yearTokenVal yt) := by
  match dt with
  | [] => exact absurd hd (by simp [dayToken])
  | [a] =>
    simp only [List.cons_append, List.nil_append, parseDMY]
    rw [if_neg (by simp [twoCharDay_dot])]
    have hcond : (('.' == '.') && oneCharDay a) = true := hd
    rw [if_pos hcond, parseMY_of_tokens hm hy]
    rfl
  | [a, b] =>
    have h2 := two_of_dayToken hd
    simp only [List.cons_append, List.nil_append, parseDMY]
    rw [if_pos h2]
    show (parseMY (mt ++ '.' :: yt)).map (fun my => (twoCharDayVal a b, my)) =
      some (dayTokenVal [a, b], monthTokenVal mt, yearTokenVal yt)
    rw [parseMY_of_tokens hm hy]
    rfl
  | a :: b :: c :: t => exact absurd hd (by simp [dayToken])

/-- C2 (counterexample): `strptime` accepts the non-zero-padded day of
"1.01.2000", so the Birthday constructor succeeds on a string that does not
strictly match `DD.MM.YYYY` (zero-padded two-digit day). -/
theorem birthday_non_padded_accepted :
    validateBirthday "1.01.2000" = .ok "1.01.2000" ∧
    specStrictBirthday "1.01.2000" = false := by
  decide

/-- C2 (amended): birthday validation succeeds exactly on strings of the
shape day-token, dot, month-token, dot, four-digit year, where the day token
is one nonzero digit, two digits valued 1..31, or a blank then a nonzero
digit; the month token is one nonzero digit or two digits valued 1..12; and
the three values denote a real calendar date with year at least 1.  On
failure the error is the fixed message. -/
theorem birthday_validation_iff (s : String) :
    (validateBirthday s = .ok s ↔ AmendedBirthdayFormat s) ∧
    (validateBirthday s = .ok s ∨
      validateBirthday s = .error "Invalid date format. Use DD.MM.YYYY") := by
  constructor
  · constructor
    · intro h
      unfold validateBirthday at h
      cases hs : strptimeDMY s with
      | error e => rw [hs] at h; exact Except.noConfusion h
      | ok p =>
        unfold strptimeDMY at hs
        cases hp : parseDMY s.toList with
        | none => rw [hp] at hs; exact Except.noConfusion hs
        | some t =>
          obtain ⟨d, md, yr⟩ := t
          simp only [hp] at hs
          by_cases hy0 : yr = 0
          · rw [if_pos hy0] at hs
            exact Except.noConfusion hs
          · rw [if_neg hy0] at hs
            by_cases hdm : daysInMonth yr md < d
            · rw [if_pos hdm] at hs
              exact Except.noConfusion hs
            · obtain ⟨dt, mt, yt, hl, hdt, hdv, hmt, hmv, hyt, hyv⟩ :=
                parseDMY_eq_some hp
              refine ⟨dt, mt, yt, hl, hdt, hmt, hyt, by omega, ?_⟩
              rw [hdv, hmv, hyv]
              omega
    · rintro ⟨dt, mt, yt, hl, hdt, hmt, hyt, hy1, hdm⟩
      have hp : parseDMY s.toList =
          some (dayTokenVal dt, monthTokenVal mt, yearTokenVal yt) := by
        rw [hl]
        exact parseDMY_of_tokens hdt hmt hyt
      unfold validateBirthday strptimeDMY
      simp only [hp]
      rw [if_neg (by omega : ¬ yearTokenVal yt = 0)]
      rw [if_neg (by omega :
        ¬ daysInMonth (yearTokenVal yt) (monthTokenVal mt) < dayTokenVal dt)]
  · cases hs : strptimeDMY s with
    | error e =>
      right
      unfold validateBirthday
      simp only [hs]
    | ok p =>
      left
      unfold validateBirthday
      simp only [hs]

end Bot
